import Mathlib

/-!
Verification of the orchestration core of `evaluate.py` (datacomp):
task resumption, result-store persistence, aggregation, checkpoint
resolution, and the three-step submission pipeline.

Python dictionaries are modelled as insertion-ordered association lists
(`List (String × α)`): assignment updates the first matching key in place
or appends a new entry at the end, and lookup returns the first match.
JSON `null` metric values are modelled as `none : Option ℚ`.
-/

/-- Lookup in an insertion-ordered dictionary (Python `d[k]` / `k in d`). -/
def dictLookup {α : Type} : List (String × α) → String → Option α
  | [], _ => none
  | (k, v) :: rest, k' => if k = k' then some v else dictLookup rest k'

/-- Python `d[k] = v`: update the first matching key in place, else append. -/
def dictInsert {α : Type} : List (String × α) → String → α → List (String × α)
  | [], k, v => [(k, v)]
  | (k', v') :: rest, k, v =>
    if k' = k then (k, v) :: rest else (k', v') :: dictInsert rest k v

/-- Python `k in d`. -/
def dictContains {α : Type} (d : List (String × α)) (k : String) : Bool :=
  (dictLookup d k).isSome

/-- A metric value: a JSON number or `null`. -/
abbrev MetricVal := Option ℚ

/-- The metrics dictionary returned by `evaluate_model` (metric name → value). -/
abbrev Metrics := List (String × MetricVal)

/-- Python `metrics.get(name)`: `None` both when the key is absent and when the
stored value is `null`. -/
def metricsGet (m : Metrics) (name : String) : MetricVal :=
  (dictLookup m name).join

/-- One entry of `tasklist.yml`: optional display name, optional size hint,
optional main-metric name (`tasks[task_key].get("name"/"size"/"main_metric")`). -/
structure TaskSpec where
  name : Option String
  size : Option Nat
  main_metric : Option String
deriving DecidableEq

/-- The ordered task configuration (YAML mapping task key → spec). -/
abbrev TaskList := List (String × TaskSpec)

/-- Keys of the task configuration (`task_key in tasks` checks these). -/
def taskKeys (tasks : TaskList) : List String :=
  tasks.map Prod.fst

/-- One line of the result file: `{"key": ..., "dataset": ..., "metrics": ...}`. -/
structure TaskResult where
  key : String
  dataset : String
  metrics : Metrics
deriving DecidableEq

/-- The in-memory `results` dictionary: dataset display name → TaskResult. -/
abbrev ResultsMap := List (String × TaskResult)

/-- Display name of a task: `tasks[task_key].get("name", task_key)`. -/
def taskName (key : String) (t : TaskSpec) : String :=
  t.name.getD key

/-- Python exceptions that the modelled code can raise. -/
inductive PyErr
  | keyError
  | typeError
  | parseError
  | assertionError (msg : String)
deriving DecidableEq

/-- Builds the TaskResult for an evaluated task (lines 358-372):
`metrics["main_metric"] = metrics.get(tasks[task_key].get("main_metric", "acc1"))`,
then the record `{"key": task_key, "dataset": task_name, "metrics": metrics}`. -/
def mkResult (key : String) (t : TaskSpec) (metrics : Metrics) : TaskResult :=
  { key := key
    dataset := taskName key t
    metrics := dictInsert metrics "main_metric"
      (metricsGet metrics (t.main_metric.getD "acc1")) }

/-- The per-task score print (lines 376-379) indexes
`results[task_name]["metrics"]["main_metric"]`; either indexing step can
raise `KeyError`. -/
def scoreIndex (r : ResultsMap) (name : String) : Except PyErr MetricVal :=
  match dictLookup r name with
  | none => Except.error PyErr.keyError
  | some res =>
    match dictLookup res.metrics "main_metric" with
    | none => Except.error PyErr.keyError
    | some v => Except.ok v

/-- The evaluation collaborator `evaluate_model(task_key, train_info, ...)`,
abstracted as task key × checkpoint path → metrics (data dir, size hint and
batch size are constant over a run). -/
abbrev Evaluator := String → String → Metrics

/-- The task loop (lines 350-379).  For each task in declared order: skip when
its dataset name is already in `results` (then print its stored score), else
evaluate, set `main_metric`, insert into `results`, append one line to the
result file, and print the score.  Returns the loop outcome together with the
list of evaluation calls made (task keys, in order) and the list of lines
appended to the result file (in order); both traces are also returned when the
loop dies with an exception. -/
def runTasks (ev : Evaluator) (ckpt : String) :
    TaskList → ResultsMap → (Except PyErr ResultsMap) × List String × List TaskResult
  | [], r => (Except.ok r, [], [])
  | (k, t) :: rest, r =>
    let name := taskName k t
    if dictContains r name then
      match scoreIndex r name with
      | Except.error e => (Except.error e, [], [])
      | Except.ok _ => runTasks ev ckpt rest r
    else
      let res := mkResult k t (ev k ckpt)
      let r' := dictInsert r name res
      match scoreIndex r' name with
      | Except.error e => (Except.error e, [k], [res])
      | Except.ok _ =>
        match runTasks ev ckpt rest r' with
        | (out, calls, app) => (out, k :: calls, res :: app)

/-- One raw line of the result file: `some r` when `json.loads` succeeds and
yields the record `r`, `none` when the line is malformed and parsing raises. -/
abbrev RawLine := Option TaskResult

/-- Model of `[json.loads(s) for s in f.readlines()]` (line 323): parses every line,
raising on the first malformed one — nothing is loaded in that case. -/
def parseLines : List RawLine → Except Unit (List TaskResult)
  | [] => Except.ok []
  | none :: _ => Except.error ()
  | some r :: rest => (parseLines rest).map (fun l => r :: l)

/-- Replays parsed lines into the results dictionary (lines 324-327):
records whose `key` is not in the task configuration are skipped silently,
the rest are assigned by dataset name. -/
def replayFrom (tasks : TaskList) (r : ResultsMap) (parsed : List TaskResult) : ResultsMap :=
  parsed.foldl
    (fun acc line =>
      if (taskKeys tasks).contains line.key then dictInsert acc line.dataset line else acc)
    r

/-- Loading the result store (lines 319-328): parse every line, then replay
the parsed records into an initially empty dictionary. -/
def loadResults (tasks : TaskList) (lines : List RawLine) : Except Unit ResultsMap :=
  (parseLines lines).map (replayFrom tasks [])

/-- Effect on the in-memory dictionary of appending one result line. -/
def insertResult (m : ResultsMap) (res : TaskResult) : ResultsMap :=
  dictInsert m res.dataset res

/-- The final-report comprehension body `val["metrics"]["main_metric"]` for
every entry of `results`, in stored order; a missing `main_metric` key raises
`KeyError` (lines 387-397). -/
def mainMetricVals : ResultsMap → Except PyErr (List MetricVal)
  | [] => Except.ok []
  | p :: rest =>
    match dictLookup p.2.metrics "main_metric" with
    | none => Except.error PyErr.keyError
    | some v => (mainMetricVals rest).map (fun l => v :: l)

/-- Model of `np.mean` over an idealized list of rationals: `none` models the `nan`
returned for an empty list (no exception is raised). -/
def npMean (l : List ℚ) : Option ℚ :=
  if l.isEmpty then none else some (l.sum / l.length)

/-- The cross-task average (lines 391-397): mean of the non-null
`main_metric` values. -/
def averageOf (vals : List MetricVal) : Option ℚ :=
  npMean (vals.filterMap id)

/-- The cross-task average computed from a results dictionary, with the
`KeyError` behaviour of the comprehension. -/
def averageMain (r : ResultsMap) : Except PyErr (Option ℚ) :=
  (mainMetricVals r).map averageOf

/-- The parsed command-line arguments that the modelled core reads. -/
structure Args where
  track : Option String
  train_output_dir : String
  batch_size : Nat
  epoch : Int
  iter : Int
  arch : String
  submit : Bool
  method_name : Option String
  author : Option String
  writeup : Option String
  email : Option String
  hf_username : Option String
  hf_repo_name : Option String
  dataset_size : String
  upload_checkpoint : Bool
  skip_hf : Bool
  skip_db : Bool
  skip_notification : Bool
deriving DecidableEq

/-- Message of the `--method_name` assertion (line 285). -/
def msgMethodName : String :=
  "Please specify your method name with --method_name for a valid submission."

/-- Message of the `--author` assertion (line 288). -/
def msgAuthor : String :=
  "Please specify your author name with --author for a valid submission."

/-- Message of the `--email` assertion (line 291). -/
def msgEmail : String :=
  "Please specify your email with --email for a valid submission."

/-- Message of the `--hf_username` assertion (line 294); note the source cites
the wrong flag here. -/
def msgHfUsername : String :=
  "Please specify your huggingface username with --method_name for a valid submission."

/-- Message of the `--hf_repo_name` assertion (line 297). -/
def msgHfRepoName : String :=
  "Please specify your huggingface repo name with --hf_repo_name for a valid submission."

/-- The submission-provenance assertions (lines 282-297), run in order; the
first missing field raises `AssertionError` with its message. -/
def checkSubmitArgs (a : Args) : Except PyErr Unit :=
  if !a.submit then Except.ok ()
  else if a.method_name = none then Except.error (PyErr.assertionError msgMethodName)
  else if a.author = none then Except.error (PyErr.assertionError msgAuthor)
  else if a.email = none then Except.error (PyErr.assertionError msgEmail)
  else if a.hf_username = none then Except.error (PyErr.assertionError msgHfUsername)
  else if a.hf_repo_name = none then Except.error (PyErr.assertionError msgHfRepoName)
  else Except.ok ()

/-- Checkpoint resolution (lines 273-309).  `latestEpoch` models the
best-effort `torch.load` sniffing of `epoch_latest.pt`: `some e` when the file
can be read and contains the epoch number `e`, `none` when any step of
reading or parsing fails (the bare `except: pass` swallows the failure).
Returns (checkpoint path, result-file name prefix). -/
def resolveCheckpoint (dir : String) (epoch iter : Int) (latestEpoch : Option Int) :
    String × String :=
  if epoch ≥ 0 then
    (dir ++ "/checkpoints/epoch_" ++ toString epoch ++ ".pt",
     "epoch_" ++ toString epoch ++ "_")
  else if iter ≥ 0 then
    (dir ++ "/checkpoints/iter_" ++ toString iter ++ ".pt",
     "iter_" ++ toString iter ++ "_")
  else
    (dir ++ "/checkpoints/epoch_latest.pt",
     match latestEpoch with
     | some e => "epoch_" ++ toString e ++ "_"
     | none => "")

/-- The checkpoint reference actually used after the existence check
(lines 330-344): the resolved path when `Path(...).exists()` returns `True`,
else (missing file, or the check raised) the canonical latest path. -/
def usedCheckpoint (a : Args) (latestEpoch : Option Int) (ckptExists : Option Bool) : String :=
  if ckptExists.getD false then
    (resolveCheckpoint a.train_output_dir a.epoch a.iter latestEpoch).1
  else a.train_output_dir ++ "/checkpoints/epoch_latest.pt"

/-- Observable state of a completed run of the orchestration core. -/
structure RunOutput where
  checkpointUsed : String
  prefixUsed : String
  warnedMissingCkpt : Bool
  results : ResultsMap
  appended : List TaskResult
  average : Option (Option ℚ)
deriving DecidableEq

/-- The orchestration core of `__main__` up to (and excluding) the submission
pipeline (lines 267-398): provenance assertions, checkpoint resolution,
cached-result loading, the checkpoint-existence fallback, the task loop, the
final report and the submit-gated average.  `ckptExists` models
`Path(...).exists()`: `some b` when the call returns `b`, `none` when it
raises (then `exists = False`).  `fileLines` are the raw lines of the result
file (empty when the file is absent).  Returns the evaluation-call trace
together with the outcome; the trace is also returned when the run dies. -/
def runHarness (a : Args) (tasks : TaskList) (latestEpoch : Option Int)
    (ckptExists : Option Bool) (fileLines : List RawLine) (ev : Evaluator) :
    List String × Except PyErr RunOutput :=
  match checkSubmitArgs a with
  | Except.error e => ([], Except.error e)
  | Except.ok _ =>
    let rp := resolveCheckpoint a.train_output_dir a.epoch a.iter latestEpoch
    match loadResults tasks fileLines with
    | Except.error _ => ([], Except.error PyErr.parseError)
    | Except.ok r0 =>
      let ex := ckptExists.getD false
      let ckptUsed := usedCheckpoint a latestEpoch ckptExists
      match runTasks ev ckptUsed tasks r0 with
      | (Except.error e, calls, _) => (calls, Except.error e)
      | (Except.ok rf, calls, app) =>
        match mainMetricVals rf with
        | Except.error e => (calls, Except.error e)
        | Except.ok vals =>
          (calls, Except.ok
            { checkpointUsed := ckptUsed
              prefixUsed := rp.2
              warnedMissingCkpt := !ex
              results := rf
              appended := app
              average := if a.submit then some (averageOf vals) else none })

/-- Observable actions of the submission pipeline, in order of occurrence. -/
inductive SubAction
  | pushHf
  | putDb
  | putSlack
  | printBanner
  | printSuccess
  | exitProc (code : Nat)
deriving DecidableEq

/-- Body of the boxed error message (lines 407-410). -/
def errorMsgBody : String :=
  "\n            Error: something went wrong when submitting your results.\n            Please check if your HF credentials are correct, and contact the team if errors persist.\n        "

/-- The boxed error banner (line 411): 100 equals signs, the body, 100 more. -/
def errorBanner : String :=
  String.mk (List.replicate 100 (Char.ofNat 61)) ++ "\n" ++ errorMsgBody ++ "\n" ++
    String.mk (List.replicate 100 (Char.ofNat 61))

/-- The submission pipeline (lines 400-433), as the ordered trace of its
observable actions, given the HTTP status codes the database and messaging
endpoints would return.  On a non-200 response the code prints the banner and
calls `sys.exit()` with no argument, which raises `SystemExit(None)` and
terminates the process with exit status 0 — hence `exitProc 0`.  No action
ever undoes an earlier one (there is no rollback operation). -/
def submissionSteps (skip_hf skip_db skip_note : Bool) (dbStatus slackStatus : Nat) :
    List SubAction :=
  let t1 : List SubAction := if skip_hf then [] else [SubAction.pushHf]
  if !skip_db && dbStatus ≠ 200 then
    t1 ++ [SubAction.putDb, SubAction.printBanner, SubAction.exitProc 0]
  else
    let t2 := t1 ++ (if skip_db then [] else [SubAction.putDb])
    if !skip_note && slackStatus ≠ 200 then
      t2 ++ [SubAction.putSlack, SubAction.printBanner, SubAction.exitProc 0]
    else
      (t2 ++ (if skip_note then [] else [SubAction.putSlack])) ++ [SubAction.printSuccess]

/-- A JSON value of the flat submission document. -/
inductive JVal
  | s (v : String)
  | n (v : ℚ)
  | nul
deriving DecidableEq

/-- An optional string as serialized into the document (`None` → JSON null). -/
def jOptS : Option String → JVal
  | some v => JVal.s v
  | none => JVal.nul

/-- Python `f"{x}"` on an optional string: `None` renders as `"None"`. -/
def pyStr : Option String → String
  | some v => v
  | none => "None"

/-- The `scale_config` dictionary fields read by `submit_to_firebase`. -/
structure ScaleConfig where
  model : String
  train_num_samples : Nat
  batch_size : Nat
  learning_rate : ℚ
deriving DecidableEq

/-- The `training_info` dictionary fields read by `submit_to_firebase`. -/
structure TrainInfoFb where
  scale : String
  scale_config : ScaleConfig
  checkpoint : String
deriving DecidableEq

/-- Names of the fields of the base submission document (lines 33-48). -/
def baseFieldNames : List String :=
  ["scale", "model", "dataset_size", "checkpoint", "batch_size", "learning_rate",
   "method_name", "author", "email", "hf_username", "hf_repo_name",
   "timestamp", "track", "writeup"]

/-- One step of the dataset loop of `submit_to_firebase` (lines 49-53): a
dataset whose metrics contain a non-null `main_metric` is assigned as a field,
any other dataset is skipped. -/
def fbStep (d : List (String × JVal)) (p : String × TaskResult) :
    List (String × JVal) :=
  match dictLookup p.2.metrics "main_metric" with
  | some (some q) => dictInsert d p.1 (JVal.n q)
  | _ => d

/-- The base submission document of `submit_to_firebase` (lines 33-48). -/
def fbBase (ti : TrainInfoFb) (a : Args) (timestamp : String) :
    List (String × JVal) :=
  [("scale", JVal.s ti.scale),
   ("model", JVal.s ti.scale_config.model),
   ("dataset_size",
     if a.dataset_size = "" then JVal.n ti.scale_config.train_num_samples
     else JVal.s a.dataset_size),
   ("checkpoint", JVal.s ti.checkpoint),
   ("batch_size", JVal.n ti.scale_config.batch_size),
   ("learning_rate", JVal.n ti.scale_config.learning_rate),
   ("method_name", jOptS a.method_name),
   ("author", jOptS a.author),
   ("email", jOptS a.email),
   ("hf_username", jOptS a.hf_username),
   ("hf_repo_name", jOptS a.hf_repo_name),
   ("timestamp", JVal.s timestamp),
   ("track", jOptS a.track),
   ("writeup", jOptS a.writeup)]

/-- The flat submission document built by `submit_to_firebase` (lines 32-53):
the provenance/config/timestamp/track base fields, then one field per dataset
whose metrics contain a non-null `main_metric`. -/
def firebaseData (ti : TrainInfoFb) (a : Args) (results : ResultsMap)
    (timestamp : String) : List (String × JVal) :=
  results.foldl fbStep (fbBase ti a timestamp)

/-- The database key (line 58):
`f"{hf_hub_username}__{hf_hub_dirname}__{timestamp}".replace(".", "_")`. -/
def firebaseKey (a : Args) (timestamp : String) : String :=
  String.replace (pyStr a.hf_username ++ "__" ++ pyStr a.hf_repo_name ++ "__" ++ timestamp)
    "." "_"

/-- The database URL (line 60). -/
def firebaseUrl (a : Args) (timestamp : String) : String :=
  "https://laion-tng-default-rtdb.firebaseio.com/" ++ firebaseKey a timestamp ++ ".json"

/-- Fixed-point rendering with three decimals, modelling Python `f"{x:.3f}"`
on the idealized rational value. -/
def fmt3 (q : ℚ) : String :=
  let m : Int := round (q * 1000)
  let a := m.natAbs
  let frac := a % 1000
  (if m < 0 then "-" else "") ++ toString (a / 1000) ++ "." ++
    (if frac < 10 then "00" else if frac < 100 then "0" else "") ++ toString frac

/-- Rendering of the average: `np.mean` of an empty list is `nan`, and
`f"{nan:.3f}"` prints `"nan"` without raising. -/
def fmtAvg : Option ℚ → String
  | none => "nan"
  | some q => fmt3 q

/-- The notification message composition of `submit_to_slack` (lines 71-94).
`scaleOpt` models `train_info.get("scale", "undefined")`.  The average
comprehension indexes `val["metrics"]["main_metric"]` (KeyError when absent),
then `results["ImageNet 1k"]["metrics"]["acc1"]` is read unconditionally
(KeyError when either key is absent); formatting a `null` accuracy with
`:.3f` raises `TypeError`. -/
def composeSlackMessage (scaleOpt : Option String) (a : Args) (results : ResultsMap) :
    Except PyErr String :=
  let scale := scaleOpt.getD "undefined"
  let hfUrl := "https://huggingface.co/" ++ pyStr a.hf_username ++ "/" ++ pyStr a.hf_repo_name
  match mainMetricVals results with
  | Except.error e => Except.error e
  | Except.ok vals =>
    let avg := averageOf vals
    match dictLookup results "ImageNet 1k" with
    | none => Except.error PyErr.keyError
    | some entry =>
      match dictLookup entry.metrics "acc1" with
      | none => Except.error PyErr.keyError
      | some none => Except.error PyErr.typeError
      | some (some acc) =>
        let msg := "New submission (" ++ scale ++ " scale, " ++ pyStr a.track ++
          " track): " ++ pyStr a.method_name ++ ". ImageNet accuracy: " ++ fmt3 acc ++
          ". Average performance " ++ fmtAvg avg ++ ". From " ++ pyStr a.author ++
          " (" ++ pyStr a.email ++ ")."
        let msg := if !a.skip_hf then
            msg.dropRight 1 ++ ", more details at " ++ hfUrl ++ "." else msg
        let msg := match a.writeup with
          | some w => if w = "" then msg else msg ++ " Writeup: " ++ w
          | none => msg
        Except.ok msg

/-- The five provenance fields the submission gate validates. -/
inductive ProvField
  | methodName
  | author
  | email
  | hfUsername
  | hfRepoName
deriving DecidableEq

/-- Whether the given provenance field is missing from the arguments. -/
def provMissing (a : Args) : ProvField → Bool
  | ProvField.methodName => a.method_name.isNone
  | ProvField.author => a.author.isNone
  | ProvField.email => a.email.isNone
  | ProvField.hfUsername => a.hf_username.isNone
  | ProvField.hfRepoName => a.hf_repo_name.isNone

/-- The assertion message raised for each missing provenance field. -/
def assertMsg : ProvField → String
  | ProvField.methodName => msgMethodName
  | ProvField.author => msgAuthor
  | ProvField.email => msgEmail
  | ProvField.hfUsername => msgHfUsername
  | ProvField.hfRepoName => msgHfRepoName

/-- A human-readable name of each provenance field, as it appears in the
corresponding assertion message. -/
def fieldPhrase : ProvField → String
  | ProvField.methodName => "method name"
  | ProvField.author => "author"
  | ProvField.email => "email"
  | ProvField.hfUsername => "huggingface username"
  | ProvField.hfRepoName => "huggingface repo name"

/-- Character-list prefix test (helper for the substring test). -/
def isPrefixL : List Char → List Char → Bool
  | [], _ => true
  | _ :: _, [] => false
  | a :: p, b :: l => a = b && isPrefixL p l

/-- Character-list substring test (helper for the substring test). -/
def isSubL (p : List Char) : List Char → Bool
  | [] => p.isEmpty
  | l@(_ :: t) => isPrefixL p l || isSubL p t

/-- Whether `pat` occurs as a contiguous substring of `s`. -/
def strContains (s pat : String) : Bool :=
  isSubL pat.data s.data

/-- A concrete RunRecord whose main metrics are 0.5, null, 0.7. -/
def avgSampleResults : ResultsMap :=
  [("A", { key := "a", dataset := "A", metrics := [("main_metric", some (1/2))] }),
   ("B", { key := "b", dataset := "B", metrics := [("main_metric", none)] }),
   ("C", { key := "c", dataset := "C", metrics := [("main_metric", some (7/10))] })]

/-- A concrete RunRecord in which every main metric is null. -/
def allNullResults : ResultsMap :=
  [("A", { key := "a", dataset := "A", metrics := [("main_metric", none)] })]

/-- A record whose key is not in the sample task set. -/
def staleResult : TaskResult :=
  { key := "gone", dataset := "Stale", metrics := [("main_metric", none)] }

/-- Concrete sample inputs used by the witness theorems. -/

def sampleArgs : Args :=
  { track := none, train_output_dir := "/out", batch_size := 64, epoch := -1, iter := -1,
    arch := "", submit := false, method_name := none, author := none, writeup := none,
    email := none, hf_username := none, hf_repo_name := none, dataset_size := "",
    upload_checkpoint := false, skip_hf := false, skip_db := false,
    skip_notification := false }

/-- A one-task configuration used by the witness theorems. -/
def sampleTasks : TaskList :=
  [("task1", { name := some "Data One", size := none, main_metric := none })]

/-- A deterministic fake evaluator used by the witness theorems. -/
def sampleEval : Evaluator := fun _ _ => [("acc1", some (1/2))]

/-- The result the fake evaluator produces for the sample task. -/
def sampleResult : TaskResult :=
  { key := "task1", dataset := "Data One",
    metrics := [("acc1", some (1/2)), ("main_metric", some (1/2))] }

/-- The output of the sample first run. -/
def sampleOut : RunOutput :=
  { checkpointUsed := "/out/checkpoints/epoch_latest.pt", prefixUsed := "",
    warnedMissingCkpt := false, results := [("Data One", sampleResult)],
    appended := [sampleResult], average := none }

/-- Concrete training info for the C9 witness. -/
def fbSampleTrainInfo : TrainInfoFb :=
  { scale := "small",
    scale_config :=
      { model := "m", train_num_samples := 10, batch_size := 2, learning_rate := 1/100 },
    checkpoint := "/out/checkpoints/epoch_latest.pt" }

/-- Concrete submission arguments for the C9 witness. -/
def fbSampleArgs : Args :=
  { sampleArgs with
    submit := true, method_name := some "m1", author := some "au", email := some "e",
    hf_username := some "user.name", hf_repo_name := some "repo" }

/-- A one-dataset RunRecord for the C9 witness. -/
def fbSampleResults : ResultsMap :=
  [("ImageNet 1k",
    { key := "imagenet1k", dataset := "ImageNet 1k",
      metrics := [("acc1", some (1/2)), ("main_metric", some (1/2))] })]

theorem dictLookup_dictInsert_self {α : Type} (d : List (String × α)) (k : String) (v : α) :
    dictLookup (dictInsert d k v) k = some v := by
  induction d with
  | nil => simp [dictInsert, dictLookup]
  | cons p rest ih =>
    by_cases h : p.1 = k
    · simp [dictInsert, dictLookup, h]
    · simpa [dictInsert, dictLookup, h] using ih

theorem dictLookup_dictInsert_ne {α : Type} (d : List (String × α)) (k k' : String) (v : α)
    (h : k ≠ k') : dictLookup (dictInsert d k v) k' = dictLookup d k' := by
  induction d with
  | nil => simp [dictInsert, dictLookup, h]
  | cons p rest ih =>
    rcases p with ⟨pk, pv⟩
    by_cases hp : pk = k
    · subst hp
      simp [dictInsert, dictLookup, h]
    · simp only [dictInsert, if_neg hp, dictLookup]
      rw [ih]

theorem dictContains_dictInsert_mono {α : Type} (d : List (String × α)) (k n : String) (v : α)
    (h : dictContains d n = true) : dictContains (dictInsert d k v) n = true := by
  by_cases hk : k = n
  · subst hk
    simp [dictContains, dictLookup_dictInsert_self]
  · simpa [dictContains, dictLookup_dictInsert_ne d k n v hk] using h

theorem mem_dictInsert {α : Type} (d : List (String × α)) (k : String) (v : α)
    (p : String × α) (h : p ∈ dictInsert d k v) : p = (k, v) ∨ p ∈ d := by
  induction d with
  | nil => simpa [dictInsert] using h
  | cons q rest ih =>
    rcases q with ⟨qk, qv⟩
    by_cases hq : qk = k
    · subst hq
      simp only [dictInsert, if_pos rfl, if_true, eq_self_iff_true, List.mem_cons] at h
      rcases h with h | h
      · exact Or.inl h
      · exact Or.inr (List.mem_cons_of_mem _ h)
    · simp only [dictInsert, if_neg hq, List.mem_cons] at h
      rcases h with h | h
      · exact Or.inr (by simp [h])
      · rcases ih h with h1 | h1
        · exact Or.inl h1
        · exact Or.inr (List.mem_cons_of_mem _ h1)

theorem dictLookup_mem {α : Type} (d : List (String × α)) (n : String) (v : α)
    (h : dictLookup d n = some v) : (n, v) ∈ d := by
  induction d with
  | nil => simp [dictLookup] at h
  | cons q rest ih =>
    rcases q with ⟨qk, qv⟩
    by_cases hq : qk = n
    · subst hq
      simp only [dictLookup, if_pos rfl, if_true, eq_self_iff_true, Option.some.injEq] at h
      subst h
      exact List.mem_cons_self _ _
    · simp only [dictLookup, if_neg hq] at h
      exact List.mem_cons_of_mem _ (ih h)

theorem mkResult_main_metric (k : String) (t : TaskSpec) (m : Metrics) :
    dictLookup (mkResult k t m).metrics "main_metric" =
      some (metricsGet m (t.main_metric.getD "acc1")) := by
  simp [mkResult, dictLookup_dictInsert_self]

theorem scoreIndex_insert_mkResult (r : ResultsMap) (k : String) (t : TaskSpec) (m : Metrics) :
    scoreIndex (dictInsert r (taskName k t) (mkResult k t m)) (taskName k t) =
      Except.ok (metricsGet m (t.main_metric.getD "acc1")) := by
  simp [scoreIndex, dictLookup_dictInsert_self, mkResult_main_metric]

theorem runTasks_nil (ev : Evaluator) (c : String) (r : ResultsMap) :
    runTasks ev c [] r = (Except.ok r, [], []) := rfl

theorem runTasks_cons_skip (ev : Evaluator) (c k : String) (t : TaskSpec)
    (rest : TaskList) (r : ResultsMap) (h : dictContains r (taskName k t) = true) :
    runTasks ev c ((k, t) :: rest) r =
      match scoreIndex r (taskName k t) with
      | Except.error e => (Except.error e, [], [])
      | Except.ok _ => runTasks ev c rest r := by
  simp [runTasks, h]

theorem runTasks_cons_eval (ev : Evaluator) (c k : String) (t : TaskSpec)
    (rest : TaskList) (r : ResultsMap) (h : dictContains r (taskName k t) = false) :
    runTasks ev c ((k, t) :: rest) r =
      ((runTasks ev c rest (dictInsert r (taskName k t) (mkResult k t (ev k c)))).1,
       k :: (runTasks ev c rest (dictInsert r (taskName k t) (mkResult k t (ev k c)))).2.1,
       mkResult k t (ev k c) ::
         (runTasks ev c rest (dictInsert r (taskName k t) (mkResult k t (ev k c)))).2.2) := by
  simp only [runTasks, h, Bool.false_eq_true, if_false, scoreIndex_insert_mkResult]

theorem runTasks_final_eq_fold (ev : Evaluator) (c : String) :
    ∀ (ts : TaskList) (r rf : ResultsMap) (calls : List String) (app : List TaskResult),
      runTasks ev c ts r = (Except.ok rf, calls, app) →
      rf = app.foldl insertResult r := by
  intro ts
  induction ts with
  | nil =>
    intro r rf calls app h
    simp only [runTasks_nil, Prod.mk.injEq, Except.ok.injEq] at h
    simp [← h.1, ← h.2.2]
  | cons p rest ih =>
    rcases p with ⟨k, t⟩
    intro r rf calls app h
    cases hc : dictContains r (taskName k t) with
    | true =>
      rw [runTasks_cons_skip ev c k t rest r hc] at h
      cases hs : scoreIndex r (taskName k t) with
      | error e => rw [hs] at h; simp at h
      | ok v => rw [hs] at h; exact ih r rf calls app h
    | false =>
      rw [runTasks_cons_eval ev c k t rest r hc] at h
      rcases hr : runTasks ev c rest (dictInsert r (taskName k t) (mkResult k t (ev k c)))
        with ⟨out, calls1, app1⟩
      rw [hr] at h
      simp only [Prod.mk.injEq] at h
      obtain ⟨h1, h2, h3⟩ := h
      subst h1 h2
      rw [← h3]
      simp only [List.foldl_cons]
      have : insertResult r (mkResult k t (ev k c)) =
          dictInsert r (taskName k t) (mkResult k t (ev k c)) := rfl
      rw [this]
      exact ih _ rf calls1 app1 (by rw [hr])

theorem runTasks_append_shape (ev : Evaluator) (c : String) :
    ∀ (ts : TaskList) (r : ResultsMap) (out : Except PyErr ResultsMap)
      (calls : List String) (app : List TaskResult),
      runTasks ev c ts r = (out, calls, app) →
      ∀ res ∈ app, ∃ k t, (k, t) ∈ ts ∧ res = mkResult k t (ev k c) := by
  intro ts
  induction ts with
  | nil =>
    intro r out calls app h res hres
    simp only [runTasks_nil, Prod.mk.injEq] at h
    rw [← h.2.2] at hres
    simp at hres
  | cons p rest ih =>
    rcases p with ⟨k, t⟩
    intro r out calls app h res hres
    cases hc : dictContains r (taskName k t) with
    | true =>
      rw [runTasks_cons_skip ev c k t rest r hc] at h
      cases hs : scoreIndex r (taskName k t) with
      | error e =>
        rw [hs] at h
        simp only [Prod.mk.injEq] at h
        rw [← h.2.2] at hres
        simp at hres
      | ok v =>
        rw [hs] at h
        obtain ⟨k1, t1, hmem, hres1⟩ := ih r out calls app h res hres
        exact ⟨k1, t1, List.mem_cons_of_mem _ hmem, hres1⟩
    | false =>
      rw [runTasks_cons_eval ev c k t rest r hc] at h
      rcases hr : runTasks ev c rest (dictInsert r (taskName k t) (mkResult k t (ev k c)))
        with ⟨out1, calls1, app1⟩
      rw [hr] at h
      simp only [Prod.mk.injEq] at h
      rw [← h.2.2] at hres
      rcases List.mem_cons.mp hres with h1 | h1
      · exact ⟨k, t, List.mem_cons_self _ _, h1⟩
      · obtain ⟨k1, t1, hmem, hres1⟩ := ih _ out1 calls1 app1 hr res h1
        exact ⟨k1, t1, List.mem_cons_of_mem _ hmem, hres1⟩

theorem foldl_insertResult_contains (app : List TaskResult) :
    ∀ (r : ResultsMap) (n : String), dictContains r n = true →
      dictContains (app.foldl insertResult r) n = true := by
  induction app with
  | nil => intro r n h; simpa using h
  | cons res rest ih =>
    intro r n h
    simp only [List.foldl_cons]
    exact ih _ n (dictContains_dictInsert_mono r res.dataset n res h)

theorem runTasks_contains_mono (ev : Evaluator) (c : String) (ts : TaskList)
    (r rf : ResultsMap) (calls : List String) (app : List TaskResult) (n : String)
    (h : runTasks ev c ts r = (Except.ok rf, calls, app))
    (hn : dictContains r n = true) : dictContains rf n = true := by
  rw [runTasks_final_eq_fold ev c ts r rf calls app h]
  exact foldl_insertResult_contains app r n hn

theorem runTasks_all_names (ev : Evaluator) (c : String) :
    ∀ (ts : TaskList) (r rf : ResultsMap) (calls : List String) (app : List TaskResult),
      runTasks ev c ts r = (Except.ok rf, calls, app) →
      ∀ k t, (k, t) ∈ ts → dictContains rf (taskName k t) = true := by
  intro ts
  induction ts with
  | nil => intro r rf calls app h k t hmem; simp at hmem
  | cons p rest ih =>
    rcases p with ⟨k0, t0⟩
    intro r rf calls app h k t hmem
    cases hc : dictContains r (taskName k0 t0) with
    | true =>
      rw [runTasks_cons_skip ev c k0 t0 rest r hc] at h
      cases hs : scoreIndex r (taskName k0 t0) with
      | error e => rw [hs] at h; simp at h
      | ok v =>
        rw [hs] at h
        rcases List.mem_cons.mp hmem with h1 | h1
        · have hk : k = k0 := congrArg Prod.fst h1
          have ht : t = t0 := congrArg Prod.snd h1
          subst hk ht
          exact runTasks_contains_mono ev c rest r rf calls app _ h hc
        · exact ih r rf calls app h k t h1
    | false =>
      rw [runTasks_cons_eval ev c k0 t0 rest r hc] at h
      rcases hr : runTasks ev c rest (dictInsert r (taskName k0 t0) (mkResult k0 t0 (ev k0 c)))
        with ⟨out1, calls1, app1⟩
      rw [hr] at h
      simp only [Prod.mk.injEq] at h
      obtain ⟨h1, h2, h3⟩ := h
      rcases List.mem_cons.mp hmem with h4 | h4
      · have hk : k = k0 := congrArg Prod.fst h4
        have ht : t = t0 := congrArg Prod.snd h4
        subst hk ht
        have hin : dictContains (dictInsert r (taskName k t) (mkResult k t (ev k c)))
            (taskName k t) = true := by
          simp [dictContains, dictLookup_dictInsert_self]
        cases out1 with
        | error e => simp at h1
        | ok rf1 =>
          have : rf = rf1 := by injection h1 with h1'; exact h1'.symm
          subst this
          exact runTasks_contains_mono ev c rest _ rf calls1 app1 _ hr hin
      · cases out1 with
        | error e => simp at h1
        | ok rf1 =>
          have : rf = rf1 := by injection h1 with h1'; exact h1'.symm
          subst this
          exact ih _ rf calls1 app1 hr k t h4

theorem mainMetricVals_mem :
    ∀ (r : ResultsMap) (vs : List MetricVal), mainMetricVals r = Except.ok vs →
      ∀ p ∈ r, ∃ v, dictLookup p.2.metrics "main_metric" = some v := by
  intro r
  induction r with
  | nil => intro vs h p hp; simp at hp
  | cons q rest ih =>
    intro vs h p hp
    have hunf : mainMetricVals (q :: rest) =
        (match dictLookup q.2.metrics "main_metric" with
         | none => Except.error PyErr.keyError
         | some v => (mainMetricVals rest).map (fun l => v :: l)) := rfl
    rw [hunf] at h
    cases hq : dictLookup q.2.metrics "main_metric" with
    | none => rw [hq] at h; simp at h
    | some v =>
      rw [hq] at h
      cases hrest : mainMetricVals rest with
      | error e => rw [hrest] at h; simp [Except.map] at h
      | ok l =>
        rcases List.mem_cons.mp hp with h1 | h1
        · exact ⟨v, h1 ▸ hq⟩
        · exact ih l hrest p h1

theorem mainMetricVals_lookup (r : ResultsMap) (vs : List MetricVal) (n : String)
    (res : TaskResult) (h : mainMetricVals r = Except.ok vs)
    (hl : dictLookup r n = some res) :
    ∃ v, dictLookup res.metrics "main_metric" = some v :=
  mainMetricVals_mem r vs h (n, res) (dictLookup_mem r n res hl)

theorem runTasks_all_skip (ev : Evaluator) (c : String) :
    ∀ (ts : TaskList) (R : ResultsMap),
      (∀ k t, (k, t) ∈ ts → ∃ res v, dictLookup R (taskName k t) = some res ∧
        dictLookup res.metrics "main_metric" = some v) →
      runTasks ev c ts R = (Except.ok R, [], []) := by
  intro ts
  induction ts with
  | nil => intro R _; exact runTasks_nil ev c R
  | cons p rest ih =>
    rcases p with ⟨k, t⟩
    intro R H
    obtain ⟨res, v, hres, hv⟩ := H k t (List.mem_cons_self _ _)
    have hc : dictContains R (taskName k t) = true := by simp [dictContains, hres]
    rw [runTasks_cons_skip ev c k t rest R hc]
    have hs : scoreIndex R (taskName k t) = Except.ok v := by
      simp [scoreIndex, hres, hv]
    rw [hs]
    exact ih R (fun k1 t1 hm => H k1 t1 (List.mem_cons_of_mem _ hm))

theorem parseLines_map_some (l : List TaskResult) :
    parseLines (l.map some) = Except.ok l := by
  induction l with
  | nil => rfl
  | cons r rest ih => simp [parseLines, ih, Except.map]

theorem parseLines_append_some :
    ∀ (xs : List RawLine) (p : List TaskResult), parseLines xs = Except.ok p →
      ∀ l : List TaskResult, parseLines (xs ++ l.map some) = Except.ok (p ++ l) := by
  intro xs
  induction xs with
  | nil =>
    intro p h l
    have : p = [] := by simpa [parseLines] using h.symm
    subst this
    simpa using parseLines_map_some l
  | cons x rest ih =>
    intro p h l
    cases x with
    | none => simp [parseLines] at h
    | some r =>
      rw [parseLines] at h
      cases hrest : parseLines rest with
      | error e => rw [hrest] at h; simp [Except.map] at h
      | ok p1 =>
        rw [hrest] at h
        simp only [Except.map] at h
        have hp : p = r :: p1 := by injection h with h1; exact h1.symm
        subst hp
        have : parseLines ((some r :: rest) ++ l.map some) =
            (parseLines (rest ++ l.map some)).map (fun l1 => r :: l1) := rfl
        rw [this, ih p1 hrest l]
        simp [Except.map]

theorem replayFrom_append (tasks : TaskList) (r : ResultsMap) (p q : List TaskResult) :
    replayFrom tasks r (p ++ q) = replayFrom tasks (replayFrom tasks r p) q := by
  simp [replayFrom, List.foldl_append]

theorem replayFrom_all_in (tasks : TaskList) :
    ∀ (app : List TaskResult) (r : ResultsMap),
      (∀ res ∈ app, (taskKeys tasks).contains res.key = true) →
      replayFrom tasks r app = app.foldl insertResult r := by
  intro app
  induction app with
  | nil => intro r _; rfl
  | cons res rest ih =>
    intro r H
    have h1 : res.key ∈ taskKeys tasks := by
      simpa using H res (List.mem_cons_self _ _)
    have hstep : replayFrom tasks r (res :: rest) =
        replayFrom tasks (dictInsert r res.dataset res) rest := by
      simp [replayFrom, h1]
    rw [hstep, ih _ (fun x hx => H x (List.mem_cons_of_mem _ hx))]
    rfl

theorem loadResults_append (tasks : TaskList) (fl : List RawLine) (r0 : ResultsMap)
    (app : List TaskResult)
    (h : loadResults tasks fl = Except.ok r0)
    (hk : ∀ res ∈ app, (taskKeys tasks).contains res.key = true) :
    loadResults tasks (fl ++ app.map some) = Except.ok (app.foldl insertResult r0) := by
  unfold loadResults at h ⊢
  cases hp : parseLines fl with
  | error e => rw [hp] at h; simp [Except.map] at h
  | ok p =>
    rw [hp] at h
    simp only [Except.map] at h
    have h0 : replayFrom tasks [] p = r0 := by injection h with h1
    rw [parseLines_append_some fl p hp app]
    simp only [Except.map, Except.ok.injEq]
    rw [replayFrom_append, h0, replayFrom_all_in tasks app r0 hk]

theorem runTasks_append_keys (ev : Evaluator) (c : String) (ts : TaskList)
    (r : ResultsMap) (out : Except PyErr ResultsMap) (calls : List String)
    (app : List TaskResult) (h : runTasks ev c ts r = (out, calls, app)) :
    ∀ res ∈ app, (taskKeys ts).contains res.key = true := by
  intro res hres
  obtain ⟨k, t, hmem, hr⟩ := runTasks_append_shape ev c ts r out calls app h res hres
  have hk : res.key = k := by rw [hr]; rfl
  rw [hk]
  have : k ∈ List.map Prod.fst ts := List.mem_map_of_mem Prod.fst hmem
  simpa [taskKeys] using this

theorem runHarness_eq (a : Args) (tasks : TaskList) (le : Option Int)
    (ce : Option Bool) (fl : List RawLine) (ev : Evaluator) (r0 rf : ResultsMap)
    (calls : List String) (app : List TaskResult) (vals : List MetricVal)
    (hchk : checkSubmitArgs a = Except.ok ())
    (hload : loadResults tasks fl = Except.ok r0)
    (hrun : runTasks ev (usedCheckpoint a le ce) tasks r0 = (Except.ok rf, calls, app))
    (hvals : mainMetricVals rf = Except.ok vals) :
    runHarness a tasks le ce fl ev = (calls, Except.ok
      { checkpointUsed := usedCheckpoint a le ce
        prefixUsed := (resolveCheckpoint a.train_output_dir a.epoch a.iter le).2
        warnedMissingCkpt := !ce.getD false
        results := rf
        appended := app
        average := if a.submit then some (averageOf vals) else none }) := by
  unfold runHarness
  simp only [hchk, hload, hrun, hvals]

theorem runHarness_ok_inv (a : Args) (tasks : TaskList) (le : Option Int)
    (ce : Option Bool) (fl : List RawLine) (ev : Evaluator)
    (calls : List String) (out : RunOutput)
    (h : runHarness a tasks le ce fl ev = (calls, Except.ok out)) :
    checkSubmitArgs a = Except.ok () ∧
    ∃ r0 vals,
      loadResults tasks fl = Except.ok r0 ∧
      runTasks ev (usedCheckpoint a le ce) tasks r0 =
        (Except.ok out.results, calls, out.appended) ∧
      mainMetricVals out.results = Except.ok vals ∧
      out = { checkpointUsed := usedCheckpoint a le ce
              prefixUsed := (resolveCheckpoint a.train_output_dir a.epoch a.iter le).2
              warnedMissingCkpt := !ce.getD false
              results := out.results
              appended := out.appended
              average := if a.submit then some (averageOf vals) else none } := by
  unfold runHarness at h
  cases hchk : checkSubmitArgs a with
  | error e => rw [hchk] at h; simp at h
  | ok u =>
    cases u
    simp only [hchk] at h
    cases hload : loadResults tasks fl with
    | error e => simp only [hload] at h; simp at h
    | ok r0 =>
      simp only [hload] at h
      rcases hrun : runTasks ev (usedCheckpoint a le ce) tasks r0 with ⟨o1, calls1, app1⟩
      simp only [hrun] at h
      cases o1 with
      | error e => simp at h
      | ok rf =>
        cases hvals : mainMetricVals rf with
        | error e => simp only [hvals] at h; simp at h
        | ok vals =>
          simp only [hvals] at h
          simp only [Prod.mk.injEq, Except.ok.injEq] at h
          obtain ⟨hcalls, hout⟩ := h
          subst hcalls
          refine ⟨rfl, r0, vals, rfl, ?_, ?_, ?_⟩
          · rw [hrun, ← hout]
          · rw [← hout, hvals]
          · rw [← hout]

/-- Claim C2: running the harness a second time on the same output directory
(the result file now holding the first run's lines followed by what it
appended) with the same task configuration makes zero evaluation calls —
every task's dataset name is already in the loaded record, so every task is
skipped — appends nothing, and produces a final RunRecord identical to the
first run's. -/
theorem second_run_skips_all_and_preserves_record
    (a : Args) (tasks : TaskList) (le : Option Int) (ce : Option Bool)
    (fl : List RawLine) (ev : Evaluator) (calls : List String) (out : RunOutput)
    (h : runHarness a tasks le ce fl ev = (calls, Except.ok out)) :
    runHarness a tasks le ce (fl ++ out.appended.map some) ev =
      ([], Except.ok
        { checkpointUsed := out.checkpointUsed
          prefixUsed := out.prefixUsed
          warnedMissingCkpt := out.warnedMissingCkpt
          results := out.results
          appended := []
          average := out.average }) := by
  obtain ⟨hchk, r0, vals, hload, hrun, hvals, hout⟩ :=
    runHarness_ok_inv a tasks le ce fl ev calls out h
  have hkeys : ∀ res ∈ out.appended, (taskKeys tasks).contains res.key = true :=
    runTasks_append_keys ev (usedCheckpoint a le ce) tasks r0 _ calls out.appended hrun
  have hload2 : loadResults tasks (fl ++ out.appended.map some) =
      Except.ok (out.appended.foldl insertResult r0) :=
    loadResults_append tasks fl r0 out.appended hload hkeys
  have hfold : out.results = out.appended.foldl insertResult r0 :=
    runTasks_final_eq_fold ev (usedCheckpoint a le ce) tasks r0 out.results calls
      out.appended hrun
  rw [← hfold] at hload2
  have hskip : runTasks ev (usedCheckpoint a le ce) tasks out.results =
      (Except.ok out.results, [], []) := by
    apply runTasks_all_skip
    intro k t hmem
    have hc : dictContains out.results (taskName k t) = true :=
      runTasks_all_names ev (usedCheckpoint a le ce) tasks r0 out.results calls
        out.appended hrun k t hmem
    obtain ⟨res, hres⟩ := Option.isSome_iff_exists.mp (by simpa [dictContains] using hc)
    obtain ⟨v, hv⟩ := mainMetricVals_lookup out.results vals (taskName k t) res hvals hres
    exact ⟨res, v, hres, hv⟩
  have heq := runHarness_eq a tasks le ce (fl ++ out.appended.map some) ev out.results
    out.results [] [] vals hchk hload2 hskip hvals
  rw [heq]
  have h1 : out.checkpointUsed = usedCheckpoint a le ce := by rw [hout]
  have h2 : out.prefixUsed = (resolveCheckpoint a.train_output_dir a.epoch a.iter le).2 := by
    rw [hout]
  have h3 : out.warnedMissingCkpt = !ce.getD false := by rw [hout]
  have h5 : out.average = if a.submit then some (averageOf vals) else none := by rw [hout]
  rw [h1, h2, h3, h5]

/-- Witness for C2: a concrete first run evaluates one task; the second run
over the extended result file makes zero evaluation calls and reproduces the
record. -/
theorem second_run_skips_all_and_preserves_record_witness :
    runHarness sampleArgs sampleTasks none (some true)
        ([] ++ sampleOut.appended.map some) sampleEval =
      ([], Except.ok
        { checkpointUsed := sampleOut.checkpointUsed
          prefixUsed := sampleOut.prefixUsed
          warnedMissingCkpt := sampleOut.warnedMissingCkpt
          results := sampleOut.results
          appended := []
          average := sampleOut.average }) :=
  second_run_skips_all_and_preserves_record sampleArgs sampleTasks none (some true) []
    sampleEval ["task1"] sampleOut rfl

/-- Claim C5: checkpoint resolution.  If epoch ≥ 0 the checkpoint path is
`<dir>/checkpoints/epoch_<epoch>.pt` with prefix `epoch_<epoch>_`; else if
iter ≥ 0 the path is `<dir>/checkpoints/iter_<iter>.pt` with prefix
`iter_<iter>_`; else the path is `<dir>/checkpoints/epoch_latest.pt`, and the
prefix is `epoch_<e>_` when the latest file can be read and contains the
embedded epoch `e`, while any failure to read or parse it (modelled by
`latestEpoch = none`, the swallowed exception) leaves the prefix `""`. -/
theorem checkpoint_resolution_cases (dir : String) (epoch iter : Int) (le : Option Int) :
    (epoch ≥ 0 →
      resolveCheckpoint dir epoch iter le =
        (dir ++ "/checkpoints/epoch_" ++ toString epoch ++ ".pt",
         "epoch_" ++ toString epoch ++ "_")) ∧
    (epoch < 0 → iter ≥ 0 →
      resolveCheckpoint dir epoch iter le =
        (dir ++ "/checkpoints/iter_" ++ toString iter ++ ".pt",
         "iter_" ++ toString iter ++ "_")) ∧
    (epoch < 0 → iter < 0 →
      (resolveCheckpoint dir epoch iter le).1 = dir ++ "/checkpoints/epoch_latest.pt" ∧
      (∀ e, le = some e →
        (resolveCheckpoint dir epoch iter le).2 = "epoch_" ++ toString e ++ "_") ∧
      (le = none → (resolveCheckpoint dir epoch iter le).2 = "")) := by
  refine ⟨?_, ?_, ?_⟩
  · intro h
    simp [resolveCheckpoint, h]
  · intro h1 h2
    simp [resolveCheckpoint, not_le.mpr h1, h2]
  · intro h1 h2
    have e1 : ¬ epoch ≥ 0 := not_le.mpr h1
    have e2 : ¬ iter ≥ 0 := not_le.mpr h2
    refine ⟨by simp [resolveCheckpoint, e1, e2], ?_, ?_⟩
    · intro e he
      simp [resolveCheckpoint, e1, e2, he]
    · intro he
      simp [resolveCheckpoint, e1, e2, he]

/-- Witness for C5 at concrete selectors. -/
theorem checkpoint_resolution_cases_witness :
    resolveCheckpoint "/o" 3 (-1) none = ("/o/checkpoints/epoch_3.pt", "epoch_3_") ∧
    resolveCheckpoint "/o" (-1) 7 (some 4) = ("/o/checkpoints/iter_7.pt", "iter_7_") ∧
    (resolveCheckpoint "/o" (-1) (-1) (some 5)).1 = "/o/checkpoints/epoch_latest.pt" ∧
    (resolveCheckpoint "/o" (-1) (-1) (some 5)).2 = "epoch_5_" ∧
    (resolveCheckpoint "/o" (-1) (-1) none).2 = "" :=
  ⟨(checkpoint_resolution_cases "/o" 3 (-1) none).1 (by decide),
   (checkpoint_resolution_cases "/o" (-1) 7 (some 4)).2.1 (by decide) (by decide),
   ((checkpoint_resolution_cases "/o" (-1) (-1) (some 5)).2.2 (by decide) (by decide)).1,
   ((checkpoint_resolution_cases "/o" (-1) (-1) (some 5)).2.2 (by decide) (by decide)).2.1 5 rfl,
   ((checkpoint_resolution_cases "/o" (-1) (-1) none).2.2 (by decide) (by decide)).2.2 rfl⟩

theorem ce_getD_false (ce : Option Bool) (hce : ce ≠ some true) : ce.getD false = false := by
  cases ce with
  | none => rfl
  | some b =>
    cases b with
    | false => rfl
    | true => exact absurd rfl hce

/-- Claim C6: when the resolved checkpoint path does not exist (or the
existence check raises), the harness substitutes
`<dir>/checkpoints/epoch_latest.pt` as the checkpoint reference and warns,
and the run is not aborted: it proceeds to evaluation, its evaluation-call
trace being exactly that of the task loop run with the substituted path. -/
theorem missing_checkpoint_falls_back_to_latest
    (a : Args) (tasks : TaskList) (le : Option Int) (ce : Option Bool)
    (fl : List RawLine) (ev : Evaluator) (hce : ce ≠ some true) :
    usedCheckpoint a le ce = a.train_output_dir ++ "/checkpoints/epoch_latest.pt" ∧
    (∀ r0 : ResultsMap, checkSubmitArgs a = Except.ok () →
      loadResults tasks fl = Except.ok r0 →
      (runHarness a tasks le ce fl ev).1 =
        (runTasks ev (a.train_output_dir ++ "/checkpoints/epoch_latest.pt") tasks r0).2.1) ∧
    (∀ (calls : List String) (out : RunOutput),
      runHarness a tasks le ce fl ev = (calls, Except.ok out) →
      out.checkpointUsed = a.train_output_dir ++ "/checkpoints/epoch_latest.pt" ∧
      out.warnedMissingCkpt = true) := by
  have hub : usedCheckpoint a le ce = a.train_output_dir ++ "/checkpoints/epoch_latest.pt" := by
    simp [usedCheckpoint, ce_getD_false ce hce]
  refine ⟨hub, ?_, ?_⟩
  · intro r0 hchk hload
    unfold runHarness
    simp only [hchk, hload, hub]
    rcases hr : runTasks ev (a.train_output_dir ++ "/checkpoints/epoch_latest.pt") tasks r0
      with ⟨o1, calls1, app1⟩
    cases o1 with
    | error e => simp
    | ok rf =>
      cases hv : mainMetricVals rf with
      | error e => simp [hv]
      | ok vals => simp [hv]
  · intro calls out h
    obtain ⟨hchk, r0, vals, hload, hrun, hvals, hout⟩ :=
      runHarness_ok_inv a tasks le ce fl ev calls out h
    constructor
    · rw [hout]
      simpa using hub
    · rw [hout]
      simp [ce_getD_false ce hce]

/-- Witness for C6: a concrete run whose existence check raised. -/
theorem missing_checkpoint_falls_back_to_latest_witness :
    usedCheckpoint sampleArgs none none = "/out/checkpoints/epoch_latest.pt" ∧
    (runHarness sampleArgs sampleTasks none none [] sampleEval).1 =
      (runTasks sampleEval "/out/checkpoints/epoch_latest.pt" sampleTasks []).2.1 ∧
    ({ checkpointUsed := "/out/checkpoints/epoch_latest.pt", prefixUsed := "",
       warnedMissingCkpt := true, results := [("Data One", sampleResult)],
       appended := [sampleResult], average := none } : RunOutput).checkpointUsed =
      "/out/checkpoints/epoch_latest.pt" :=
  ⟨(missing_checkpoint_falls_back_to_latest sampleArgs sampleTasks none none []
      sampleEval (by decide)).1,
   (missing_checkpoint_falls_back_to_latest sampleArgs sampleTasks none none []
      sampleEval (by decide)).2.1 [] rfl rfl,
   ((missing_checkpoint_falls_back_to_latest sampleArgs sampleTasks none none []
      sampleEval (by decide)).2.2 ["task1"]
      { checkpointUsed := "/out/checkpoints/epoch_latest.pt", prefixUsed := "",
        warnedMissingCkpt := true, results := [("Data One", sampleResult)],
        appended := [sampleResult], average := none } rfl).1⟩

/-- Claim C3: when submission is requested and any required provenance field
(method name, author, email, hub username, hub repo name) is missing, the run
fails before any evaluation work with an `AssertionError` whose message names
the missing field, and the evaluation-call trace is empty — zero calls to the
evaluation collaborator are made. -/
theorem submit_validation_precedes_evaluation
    (a : Args) (tasks : TaskList) (le : Option Int) (ce : Option Bool)
    (fl : List RawLine) (ev : Evaluator)
    (hsub : a.submit = true)
    (hmiss : a.method_name = none ∨ a.author = none ∨ a.email = none ∨
      a.hf_username = none ∨ a.hf_repo_name = none) :
    ∃ f : ProvField, provMissing a f = true ∧
      runHarness a tasks le ce fl ev = ([], Except.error (PyErr.assertionError (assertMsg f))) ∧
      strContains (assertMsg f) (fieldPhrase f) = true := by
  by_cases h1 : a.method_name = none
  · refine ⟨ProvField.methodName, by simp [provMissing, h1], ?_, by decide⟩
    have hc : checkSubmitArgs a = Except.error (PyErr.assertionError msgMethodName) := by
      simp [checkSubmitArgs, hsub, h1]
    unfold runHarness
    simp only [hc]
    rfl
  · by_cases h2 : a.author = none
    · refine ⟨ProvField.author, by simp [provMissing, h2], ?_, by decide⟩
      have hc : checkSubmitArgs a = Except.error (PyErr.assertionError msgAuthor) := by
        simp [checkSubmitArgs, hsub, h1, h2]
      unfold runHarness
      simp only [hc]
      rfl
    · by_cases h3 : a.email = none
      · refine ⟨ProvField.email, by simp [provMissing, h3], ?_, by decide⟩
        have hc : checkSubmitArgs a = Except.error (PyErr.assertionError msgEmail) := by
          simp [checkSubmitArgs, hsub, h1, h2, h3]
        unfold runHarness
        simp only [hc]
        rfl
      · by_cases h4 : a.hf_username = none
        · refine ⟨ProvField.hfUsername, by simp [provMissing, h4], ?_, by decide⟩
          have hc : checkSubmitArgs a = Except.error (PyErr.assertionError msgHfUsername) := by
            simp [checkSubmitArgs, hsub, h1, h2, h3, h4]
          unfold runHarness
          simp only [hc]
          rfl
        · by_cases h5 : a.hf_repo_name = none
          · refine ⟨ProvField.hfRepoName, by simp [provMissing, h5], ?_, by decide⟩
            have hc : checkSubmitArgs a = Except.error (PyErr.assertionError msgHfRepoName) := by
              simp [checkSubmitArgs, hsub, h1, h2, h3, h4, h5]
            unfold runHarness
            simp only [hc]
            rfl
          · rcases hmiss with h | h | h | h | h
            · exact absurd h h1
            · exact absurd h h2
            · exact absurd h h3
            · exact absurd h h4
            · exact absurd h h5

/-- Witness for C3: submission requested with no method name set. -/
theorem submit_validation_precedes_evaluation_witness :
    ∃ f : ProvField,
      provMissing { sampleArgs with submit := true } f = true ∧
      runHarness { sampleArgs with submit := true } sampleTasks none (some true) []
          sampleEval =
        ([], Except.error (PyErr.assertionError (assertMsg f))) ∧
      strContains (assertMsg f) (fieldPhrase f) = true :=
  submit_validation_precedes_evaluation { sampleArgs with submit := true } sampleTasks
    none (some true) [] sampleEval rfl (Or.inl rfl)

/-- Claim C4: the cross-task average is the arithmetic mean of exactly the
non-null `main_metric` values of the RunRecord (for values 0.5, null, 0.7 it
is 0.6 = 3/5); when every value is null the average is the undefined value
(`np.mean` of an empty list, modelled `none`) rather than an exception; and a
completed run carries an average exactly when submission was requested. -/
theorem average_excludes_null_and_requires_submit :
    (∀ (r : ResultsMap) (vals : List MetricVal), mainMetricVals r = Except.ok vals →
      vals.filterMap id ≠ [] →
      averageMain r =
        Except.ok (some ((vals.filterMap id).sum / (vals.filterMap id).length))) ∧
    (∀ r : ResultsMap, mainMetricVals r = Except.ok [some (1/2), none, some (7/10)] →
      averageMain r = Except.ok (some (3/5))) ∧
    (∀ (r : ResultsMap) (vals : List MetricVal), mainMetricVals r = Except.ok vals →
      vals.filterMap id = [] → averageMain r = Except.ok none) ∧
    (∀ (a : Args) (tasks : TaskList) (le : Option Int) (ce : Option Bool)
       (fl : List RawLine) (ev : Evaluator) (calls : List String) (out : RunOutput),
      runHarness a tasks le ce fl ev = (calls, Except.ok out) →
      (a.submit = false → out.average = none) ∧
      (a.submit = true → ∃ vals, mainMetricVals out.results = Except.ok vals ∧
        out.average = some (averageOf vals))) := by
  refine ⟨?_, ?_, ?_, ?_⟩
  · intro r vals h hne
    have hemp : (vals.filterMap id).isEmpty = false := by
      cases hv : vals.filterMap id with
      | nil => exact absurd hv hne
      | cons x l => rfl
    simp [averageMain, h, Except.map, averageOf, npMean, hemp]
  · intro r h
    simp [averageMain, h, Except.map, averageOf, npMean]
    norm_num
  · intro r vals h hz
    simp [averageMain, h, Except.map, averageOf, hz, npMean]
  · intro a tasks le ce fl ev calls out h
    obtain ⟨hchk, r0, vals, hload, hrun, hvals, hout⟩ :=
      runHarness_ok_inv a tasks le ce fl ev calls out h
    constructor
    · intro hs
      rw [hout]
      simp [hs]
    · intro hs
      exact ⟨vals, hvals, by rw [hout]; simp [hs]⟩

/-- Witness for C4: the 0.5/null/0.7 record averages to 3/5 and the all-null
record has an undefined average. -/
theorem average_excludes_null_and_requires_submit_witness :
    averageMain avgSampleResults = Except.ok (some (3/5)) ∧
    averageMain allNullResults = Except.ok none :=
  ⟨average_excludes_null_and_requires_submit.2.1 avgSampleResults rfl,
   average_excludes_null_and_requires_submit.2.2.1 allNullResults [none] rfl rfl⟩

theorem parseLines_error_of_mem_none :
    ∀ (lines : List RawLine), none ∈ lines → parseLines lines = Except.error () := by
  intro lines
  induction lines with
  | nil => intro h; simp at h
  | cons x rest ih =>
    intro h
    cases x with
    | none => rfl
    | some r =>
      have : none ∈ rest := by
        rcases List.mem_cons.mp h with h1 | h1
        · exact absurd h1 (by simp)
        · exact h1
      simp [parseLines, ih this, Except.map]

theorem parseLines_ok_of_no_none :
    ∀ (lines : List RawLine), ¬ none ∈ lines → ∃ p, parseLines lines = Except.ok p := by
  intro lines
  induction lines with
  | nil => intro _; exact ⟨[], rfl⟩
  | cons x rest ih =>
    intro h
    cases x with
    | none => exact absurd (List.mem_cons_self _ _) h
    | some r =>
      obtain ⟨p, hp⟩ := ih (fun hm => h (List.mem_cons_of_mem _ hm))
      exact ⟨r :: p, by simp [parseLines, hp, Except.map]⟩

theorem parseLines_mem :
    ∀ (lines : List RawLine) (p : List TaskResult), parseLines lines = Except.ok p →
      ∀ x ∈ p, some x ∈ lines := by
  intro lines
  induction lines with
  | nil =>
    intro p h x hx
    have : p = [] := by simpa [parseLines] using h.symm
    subst this
    simp at hx
  | cons y rest ih =>
    intro p h x hx
    cases y with
    | none => simp [parseLines] at h
    | some r =>
      rw [parseLines] at h
      cases hrest : parseLines rest with
      | error e => rw [hrest] at h; simp [Except.map] at h
      | ok p1 =>
        rw [hrest] at h
        simp only [Except.map] at h
        have hp : p = r :: p1 := by injection h with h1; exact h1.symm
        subst hp
        rcases List.mem_cons.mp hx with h1 | h1
        · rw [h1]; exact List.mem_cons_self _ _
        · exact List.mem_cons_of_mem _ (ih p1 hrest x h1)

theorem replayFrom_mem (tasks : TaskList) :
    ∀ (parsed : List TaskResult) (acc : ResultsMap) (p : String × TaskResult),
      p ∈ replayFrom tasks acc parsed →
      p ∈ acc ∨ ((taskKeys tasks).contains p.2.key = true ∧ p.2 ∈ parsed) := by
  intro parsed
  induction parsed with
  | nil => intro acc p h; exact Or.inl h
  | cons line rest ih =>
    intro acc p h
    have hstep : replayFrom tasks acc (line :: rest) =
        replayFrom tasks
          (if (taskKeys tasks).contains line.key then dictInsert acc line.dataset line
           else acc) rest := by
      simp [replayFrom]
    rw [hstep] at h
    rcases ih _ p h with h1 | h1
    · cases hk : (taskKeys tasks).contains line.key with
      | true =>
        rw [hk] at h1
        simp at h1
        rcases mem_dictInsert acc line.dataset line p h1 with h2 | h2
        · refine Or.inr ⟨?_, ?_⟩
          · rw [h2]; exact hk
          · rw [h2]; exact List.mem_cons_self _ _
        · exact Or.inl h2
      | false =>
        rw [hk] at h1
        simp at h1
        exact Or.inl h1
    · exact Or.inr ⟨h1.1, List.mem_cons_of_mem _ h1.2⟩

/-- Claim C7: loading the result store parses every line as an independent
record; when any line is malformed (`none`), the load fails fast with a fatal
error; when every line parses, the load succeeds, and every record in the
in-memory mapping comes from a parsed line whose key is in the current task
set — records with stale keys are silently filtered out and never appear. -/
theorem load_fails_fast_and_filters_stale_keys (tasks : TaskList) (lines : List RawLine) :
    (none ∈ lines → loadResults tasks lines = Except.error ()) ∧
    (¬ none ∈ lines → ∃ r, loadResults tasks lines = Except.ok r) ∧
    (∀ r, loadResults tasks lines = Except.ok r →
      ∀ nm res, dictLookup r nm = some res →
        (taskKeys tasks).contains res.key = true ∧ some res ∈ lines) := by
  refine ⟨?_, ?_, ?_⟩
  · intro h
    simp [loadResults, parseLines_error_of_mem_none lines h, Except.map]
  · intro h
    obtain ⟨p, hp⟩ := parseLines_ok_of_no_none lines h
    exact ⟨replayFrom tasks [] p, by simp [loadResults, hp, Except.map]⟩
  · intro r hr nm res hl
    unfold loadResults at hr
    cases hp : parseLines lines with
    | error e => rw [hp] at hr; simp [Except.map] at hr
    | ok p =>
      rw [hp] at hr
      simp only [Except.map] at hr
      have hrep : replayFrom tasks [] p = r := by injection hr with h1
      have hmem : (nm, res) ∈ r := dictLookup_mem r nm res hl
      rw [← hrep] at hmem
      rcases replayFrom_mem tasks p [] (nm, res) hmem with h1 | h1
      · simp at h1
      · exact ⟨h1.1, parseLines_mem lines p hp res h1.2⟩

/-- Witness for C7: a malformed second line kills a load; a stale-keyed record
is silently dropped while the current-keyed record survives. -/
theorem load_fails_fast_and_filters_stale_keys_witness :
    loadResults sampleTasks [some sampleResult, none] = Except.error () ∧
    loadResults sampleTasks [some staleResult, some sampleResult] =
      Except.ok [("Data One", sampleResult)] ∧
    ((taskKeys sampleTasks).contains sampleResult.key = true ∧
      some sampleResult ∈ [some staleResult, some sampleResult]) :=
  ⟨(load_fails_fast_and_filters_stale_keys sampleTasks [some sampleResult, none]).1
      (by decide),
   rfl,
   (load_fails_fast_and_filters_stale_keys sampleTasks
      [some staleResult, some sampleResult]).2.2 [("Data One", sampleResult)] rfl
      "Data One" sampleResult rfl⟩

/-- Claim C8: every evaluated task's stored TaskResult carries a
`main_metric` entry equal to the value of the task's configured main metric
(defaulting to `"acc1"`), null when that metric is absent from the evaluation
output (part 1, via `metricsGet`); every line appended during a run is such a
result of one of the run's tasks (part 2); and an evaluated task's single line
is appended immediately — the remaining tasks run against the store already
containing it (part 3, the loop's one-step equation). -/
theorem main_metric_set_and_appended_immediately :
    (∀ (k : String) (t : TaskSpec) (m : Metrics),
      dictLookup (mkResult k t m).metrics "main_metric" =
        some (metricsGet m (t.main_metric.getD "acc1"))) ∧
    (∀ (ev : Evaluator) (c : String) (ts : TaskList) (r : ResultsMap)
       (out : Except PyErr ResultsMap) (calls : List String) (app : List TaskResult),
      runTasks ev c ts r = (out, calls, app) →
      ∀ res ∈ app, ∃ k t, (k, t) ∈ ts ∧ res = mkResult k t (ev k c)) ∧
    (∀ (ev : Evaluator) (c k : String) (t : TaskSpec) (rest : TaskList) (r : ResultsMap),
      dictContains r (taskName k t) = false →
      runTasks ev c ((k, t) :: rest) r =
        ((runTasks ev c rest (dictInsert r (taskName k t) (mkResult k t (ev k c)))).1,
         k :: (runTasks ev c rest (dictInsert r (taskName k t) (mkResult k t (ev k c)))).2.1,
         mkResult k t (ev k c) ::
           (runTasks ev c rest (dictInsert r (taskName k t) (mkResult k t (ev k c)))).2.2)) :=
  ⟨mkResult_main_metric, runTasks_append_shape, runTasks_cons_eval⟩

/-- Witness for C8 on the sample task and a fresh store. -/
theorem main_metric_set_and_appended_immediately_witness :
    dictLookup (mkResult "task1"
        { name := some "Data One", size := none, main_metric := none }
        [("acc1", some (1/2))]).metrics "main_metric" = some (some (1/2)) ∧
    (∃ k t, (k, t) ∈ sampleTasks ∧ sampleResult = mkResult k t (sampleEval k "c")) ∧
    runTasks sampleEval "c" sampleTasks [] =
      ((runTasks sampleEval "c" [] [("Data One", sampleResult)]).1,
       "task1" :: (runTasks sampleEval "c" [] [("Data One", sampleResult)]).2.1,
       sampleResult :: (runTasks sampleEval "c" [] [("Data One", sampleResult)]).2.2) :=
  ⟨main_metric_set_and_appended_immediately.1 "task1"
      { name := some "Data One", size := none, main_metric := none } [("acc1", some (1/2))],
   main_metric_set_and_appended_immediately.2.1 sampleEval "c" sampleTasks []
      (Except.ok [("Data One", sampleResult)]) ["task1"] [sampleResult] rfl
      sampleResult (List.mem_cons_self _ _),
   main_metric_set_and_appended_immediately.2.2 sampleEval "c" "task1"
      { name := some "Data One", size := none, main_metric := none } [] [] rfl⟩

/-- Claim C1 (code bug): when the database step gets a non-200 response
(here 500), the pipeline trace is push-to-hub, database PUT, boxed banner,
process exit — so the banner is printed, no remaining submission step runs,
no action undoes the completed hub push, and the process terminates; but the
exit status is 0, because `sys.exit()` is called with no argument, not the
non-zero status the claim requires.  The second trace shows the same for a
notification-step failure. -/
theorem db_failure_banner_halts_without_rollback_exit_zero :
    submissionSteps false false false 500 200 =
      [SubAction.pushHf, SubAction.putDb, SubAction.printBanner, SubAction.exitProc 0] ∧
    submissionSteps false false false 200 500 =
      [SubAction.pushHf, SubAction.putDb, SubAction.putSlack, SubAction.printBanner,
       SubAction.exitProc 0] :=
  ⟨rfl, rfl⟩

theorem mainMetricVals_error :
    ∀ (r : ResultsMap) (e : PyErr), mainMetricVals r = Except.error e →
      e = PyErr.keyError := by
  intro r
  induction r with
  | nil => intro e h; simp [mainMetricVals] at h
  | cons p rest ih =>
    intro e h
    have hunf : mainMetricVals (p :: rest) =
        (match dictLookup p.2.metrics "main_metric" with
         | none => Except.error PyErr.keyError
         | some v => (mainMetricVals rest).map (fun l => v :: l)) := rfl
    rw [hunf] at h
    cases hq : dictLookup p.2.metrics "main_metric" with
    | none =>
      rw [hq] at h
      injection h with h1
      exact h1.symm
    | some v =>
      rw [hq] at h
      cases hrest : mainMetricVals rest with
      | error e1 =>
        rw [hrest] at h
        simp only [Except.map] at h
        injection h with h1
        exact h1 ▸ ih e1 hrest
      | ok l => rw [hrest] at h; simp [Except.map] at h

/-- Claim C10: composing the notification message unconditionally reads
`results["ImageNet 1k"]["metrics"]["acc1"]`: for any results mapping with no
"ImageNet 1k" entry, or whose entry lacks an "acc1" metric, composition
raises `KeyError` instead of producing a message; and a message is produced
only when that entry exists with a non-null "acc1" metric. -/
theorem slack_requires_imagenet_acc1
    (s : Option String) (a : Args) (rs : ResultsMap)
    (h : dictLookup rs "ImageNet 1k" = none ∨
      ∃ e, dictLookup rs "ImageNet 1k" = some e ∧ dictLookup e.metrics "acc1" = none) :
    composeSlackMessage s a rs = Except.error PyErr.keyError ∧
    ∀ (s2 : Option String) (a2 : Args) (rs2 : ResultsMap) (msg : String),
      composeSlackMessage s2 a2 rs2 = Except.ok msg →
      ∃ e q, dictLookup rs2 "ImageNet 1k" = some e ∧
        dictLookup e.metrics "acc1" = some (some q) := by
  constructor
  · cases hm : mainMetricVals rs with
    | error e =>
      have he : e = PyErr.keyError := mainMetricVals_error rs e hm
      subst he
      simp [composeSlackMessage, hm]
    | ok vals =>
      rcases h with h1 | ⟨e, h1, h2⟩
      · simp [composeSlackMessage, hm, h1]
      · simp [composeSlackMessage, hm, h1, h2]
  · intro s2 a2 rs2 msg hmsg
    unfold composeSlackMessage at hmsg
    cases hm : mainMetricVals rs2 with
    | error e => simp only [hm] at hmsg; simp at hmsg
    | ok vals =>
      simp only [hm] at hmsg
      cases hl : dictLookup rs2 "ImageNet 1k" with
      | none => simp only [hl] at hmsg; simp at hmsg
      | some e =>
        simp only [hl] at hmsg
        cases ha : dictLookup e.metrics "acc1" with
        | none => simp only [ha] at hmsg; simp at hmsg
        | some v =>
          simp only [ha] at hmsg
          cases v with
          | none => simp at hmsg
          | some q => exact ⟨e, q, rfl, ha⟩

/-- Witness for C10: a record with no "ImageNet 1k" entry. -/
theorem slack_requires_imagenet_acc1_witness :
    composeSlackMessage none sampleArgs allNullResults = Except.error PyErr.keyError :=
  (slack_requires_imagenet_acc1 none sampleArgs allNullResults (Or.inl rfl)).1

theorem fb_preserve :
    ∀ (rs : ResultsMap) (d : List (String × JVal)) (nm : String),
      (∀ p ∈ rs, p.1 ≠ nm) →
      dictLookup (rs.foldl fbStep d) nm = dictLookup d nm := by
  intro rs
  induction rs with
  | nil => intro d nm _; rfl
  | cons p rest ih =>
    intro d nm H
    have hne : p.1 ≠ nm := H p (List.mem_cons_self _ _)
    have hstep : List.foldl fbStep d (p :: rest) = List.foldl fbStep (fbStep d p) rest := rfl
    rw [hstep, ih (fbStep d p) nm (fun x hx => H x (List.mem_cons_of_mem _ hx))]
    unfold fbStep
    cases hmm : dictLookup p.2.metrics "main_metric" with
    | none => rfl
    | some v =>
      cases v with
      | none => rfl
      | some q => exact dictLookup_dictInsert_ne d p.1 nm (JVal.n q) hne

theorem fb_mem_lookup :
    ∀ (rs : ResultsMap) (d : List (String × JVal)) (nm : String) (res : TaskResult) (q : ℚ),
      (rs.map Prod.fst).Nodup → (nm, res) ∈ rs →
      dictLookup res.metrics "main_metric" = some (some q) →
      dictLookup (rs.foldl fbStep d) nm = some (JVal.n q) := by
  intro rs
  induction rs with
  | nil => intro d nm res q _ hmem _; simp at hmem
  | cons p rest ih =>
    intro d nm res q hnd hmem hq
    have hnd' : (p.1 :: rest.map Prod.fst).Nodup := by simpa using hnd
    have hnd1 : p.1 ∉ rest.map Prod.fst := (List.nodup_cons.mp hnd').1
    have hnd2 : (rest.map Prod.fst).Nodup := (List.nodup_cons.mp hnd').2
    have hstep : List.foldl fbStep d (p :: rest) = List.foldl fbStep (fbStep d p) rest := rfl
    rw [hstep]
    rcases List.mem_cons.mp hmem with h1 | h1
    · have hp1 : p.1 = nm := by rw [← h1]
      have hp2 : p.2 = res := by rw [← h1]
      have hfb : fbStep d p = dictInsert d nm (JVal.n q) := by
        unfold fbStep
        rw [hp2, hq, hp1]
      rw [hfb]
      have hrest : ∀ x ∈ rest, x.1 ≠ nm := by
        intro x hx heq
        exact hnd1 (hp1 ▸ heq ▸ List.mem_map_of_mem Prod.fst hx)
      rw [fb_preserve rest (dictInsert d nm (JVal.n q)) nm hrest]
      exact dictLookup_dictInsert_self d nm (JVal.n q)
    · exact ih (fbStep d p) nm res q hnd2 h1 hq

theorem fb_origin :
    ∀ (rs : ResultsMap) (d : List (String × JVal)) (nm : String) (v : JVal),
      dictLookup (rs.foldl fbStep d) nm = some v →
      dictLookup d nm = some v ∨
        ∃ res q, (nm, res) ∈ rs ∧ dictLookup res.metrics "main_metric" = some (some q) ∧
          v = JVal.n q := by
  intro rs
  induction rs with
  | nil => intro d nm v h; exact Or.inl h
  | cons p rest ih =>
    intro d nm v h
    have hstep : List.foldl fbStep d (p :: rest) = List.foldl fbStep (fbStep d p) rest := rfl
    rw [hstep] at h
    rcases ih (fbStep d p) nm v h with h1 | ⟨res, q, hmem, hq, hv⟩
    · cases hmm : dictLookup p.2.metrics "main_metric" with
      | none =>
        left
        rw [← h1]
        unfold fbStep
        rw [hmm]
      | some w =>
        cases w with
        | none =>
          left
          rw [← h1]
          unfold fbStep
          rw [hmm]
        | some q =>
          have hfb : fbStep d p = dictInsert d p.1 (JVal.n q) := by
            unfold fbStep
            rw [hmm]
          rw [hfb] at h1
          by_cases hp : p.1 = nm
          · right
            refine ⟨p.2, q, ?_, hmm, ?_⟩
            · have hpp : (nm, p.2) = p := by rw [← hp]
              rw [hpp]
              exact List.mem_cons_self _ _
            · have hl : dictLookup (dictInsert d p.1 (JVal.n q)) nm = some (JVal.n q) := by
                rw [hp]
                exact dictLookup_dictInsert_self d nm (JVal.n q)
              rw [hl] at h1
              injection h1 with h2
              exact h2.symm
          · left
            rw [← h1]
            exact (dictLookup_dictInsert_ne d p.1 nm (JVal.n q) hp).symm
    · exact Or.inr ⟨res, q, List.mem_cons_of_mem _ hmem, hq, hv⟩

theorem fbBase_lookup_none (ti : TrainInfoFb) (a : Args) (ts nm : String)
    (h : baseFieldNames.contains nm = false) :
    dictLookup (fbBase ti a ts) nm = none := by
  simp [baseFieldNames] at h
  obtain ⟨h1, h2, h3, h4, h5, h6, h7, h8, h9, h10, h11, h12, h13, h14⟩ := h
  simp [fbBase, dictLookup, Ne.symm h1, Ne.symm h2, Ne.symm h3, Ne.symm h4, Ne.symm h5,
    Ne.symm h6, Ne.symm h7, Ne.symm h8, Ne.symm h9, Ne.symm h10, Ne.symm h11, Ne.symm h12,
    Ne.symm h13, Ne.symm h14]

/-- Claim C9: the database submission document is flat: it contains one field
per dataset with a non-null `main_metric` in the RunRecord, holding exactly
that value (part 1, and part 2 shows no other non-base field occurs), plus
the provenance (method name, author, email, hub username, hub repo name),
timestamp, and track fields (part 3); and the destination key is
`{hf_username}__{hf_repo_name}__{timestamp}` with every dot replaced by an
underscore (part 4). -/
theorem firebase_document_fields_and_key
    (ti : TrainInfoFb) (a : Args) (rs : ResultsMap) (ts : String)
    (hdisj : ∀ p ∈ rs, baseFieldNames.contains p.1 = false) :
    ((rs.map Prod.fst).Nodup →
      ∀ nm res q, (nm, res) ∈ rs →
        dictLookup res.metrics "main_metric" = some (some q) →
        dictLookup (firebaseData ti a rs ts) nm = some (JVal.n q)) ∧
    (∀ nm v, baseFieldNames.contains nm = false →
      dictLookup (firebaseData ti a rs ts) nm = some v →
      ∃ res q, (nm, res) ∈ rs ∧ dictLookup res.metrics "main_metric" = some (some q) ∧
        v = JVal.n q) ∧
    (dictLookup (firebaseData ti a rs ts) "method_name" = some (jOptS a.method_name) ∧
     dictLookup (firebaseData ti a rs ts) "author" = some (jOptS a.author) ∧
     dictLookup (firebaseData ti a rs ts) "email" = some (jOptS a.email) ∧
     dictLookup (firebaseData ti a rs ts) "hf_username" = some (jOptS a.hf_username) ∧
     dictLookup (firebaseData ti a rs ts) "hf_repo_name" = some (jOptS a.hf_repo_name) ∧
     dictLookup (firebaseData ti a rs ts) "timestamp" = some (JVal.s ts) ∧
     dictLookup (firebaseData ti a rs ts) "track" = some (jOptS a.track)) ∧
    (∀ u r, a.hf_username = some u → a.hf_repo_name = some r →
      firebaseKey a ts = String.replace (u ++ "__" ++ r ++ "__" ++ ts) "." "_") := by
  have hfield : ∀ nm : String, baseFieldNames.contains nm = true →
      ∀ p ∈ rs, p.1 ≠ nm := by
    intro nm hnm p hp heq
    have := hdisj p hp
    rw [heq, hnm] at this
    exact Bool.noConfusion this
  refine ⟨?_, ?_, ?_, ?_⟩
  · intro hnd nm res q hmem hq
    exact fb_mem_lookup rs (fbBase ti a ts) nm res q hnd hmem hq
  · intro nm v hnm hl
    rcases fb_origin rs (fbBase ti a ts) nm v hl with h1 | h1
    · rw [fbBase_lookup_none ti a ts nm hnm] at h1
      exact Option.noConfusion h1
    · exact h1
  · refine ⟨?_, ?_, ?_, ?_, ?_, ?_, ?_⟩
    · rw [show firebaseData ti a rs ts = rs.foldl fbStep (fbBase ti a ts) from rfl,
        fb_preserve rs (fbBase ti a ts) "method_name" (hfield "method_name" (by decide))]
      rfl
    · rw [show firebaseData ti a rs ts = rs.foldl fbStep (fbBase ti a ts) from rfl,
        fb_preserve rs (fbBase ti a ts) "author" (hfield "author" (by decide))]
      rfl
    · rw [show firebaseData ti a rs ts = rs.foldl fbStep (fbBase ti a ts) from rfl,
        fb_preserve rs (fbBase ti a ts) "email" (hfield "email" (by decide))]
      rfl
    · rw [show firebaseData ti a rs ts = rs.foldl fbStep (fbBase ti a ts) from rfl,
        fb_preserve rs (fbBase ti a ts) "hf_username" (hfield "hf_username" (by decide))]
      rfl
    · rw [show firebaseData ti a rs ts = rs.foldl fbStep (fbBase ti a ts) from rfl,
        fb_preserve rs (fbBase ti a ts) "hf_repo_name" (hfield "hf_repo_name" (by decide))]
      rfl
    · rw [show firebaseData ti a rs ts = rs.foldl fbStep (fbBase ti a ts) from rfl,
        fb_preserve rs (fbBase ti a ts) "timestamp" (hfield "timestamp" (by decide))]
      rfl
    · rw [show firebaseData ti a rs ts = rs.foldl fbStep (fbBase ti a ts) from rfl,
        fb_preserve rs (fbBase ti a ts) "track" (hfield "track" (by decide))]
      rfl
  · intro u r hu hr
    simp [firebaseKey, hu, hr, pyStr]

/-- Witness for C9 on a concrete record, arguments (with a dotted username)
and timestamp. -/
theorem firebase_document_fields_and_key_witness :
    dictLookup (firebaseData fbSampleTrainInfo fbSampleArgs fbSampleResults
        "2023-05-01_12:00:00") "ImageNet 1k" = some (JVal.n (1/2)) ∧
    dictLookup (firebaseData fbSampleTrainInfo fbSampleArgs fbSampleResults
        "2023-05-01_12:00:00") "method_name" = some (jOptS (some "m1")) ∧
    firebaseKey fbSampleArgs "2023-05-01_12:00:00" =
      String.replace ("user.name" ++ "__" ++ "repo" ++ "__" ++ "2023-05-01_12:00:00")
        "." "_" :=
  ⟨(firebase_document_fields_and_key fbSampleTrainInfo fbSampleArgs fbSampleResults
      "2023-05-01_12:00:00" (by decide)).1 (by decide) "ImageNet 1k"
      { key := "imagenet1k", dataset := "ImageNet 1k",
        metrics := [("acc1", some (1/2)), ("main_metric", some (1/2))] }
      (1/2) (List.mem_cons_self _ _) rfl,
   (firebase_document_fields_and_key fbSampleTrainInfo fbSampleArgs fbSampleResults
      "2023-05-01_12:00:00" (by decide)).2.2.1.1,
   (firebase_document_fields_and_key fbSampleTrainInfo fbSampleArgs fbSampleResults
      "2023-05-01_12:00:00" (by decide)).2.2.2 "user.name" "repo" rfl rfl⟩
